import Mathlib

/-!
Verification of the fixed-width LITTLE_R report codec
(`measurements/little_r.py`) and the OpenFOAM-style nested-block
dictionary reader (`sowfa/utils.py`) of the mmctools repository.

The Python code is shallowly embedded: files are lists of lines
(`readline` pops the head and yields the empty string at end of file,
which we model as the empty list), Python strings are Lean `String`s
manipulated through their character lists, Python `float` values
appearing in these files are rationals, fallible Python code returns
`Except String` where the string names the exception class raised.
-/

/-! ### Python string primitives

Each `py...` definition mirrors the behaviour of the corresponding
Python `str` method on the inputs that occur in the embedded code.
-/

/-- Characters removed by Python `str.strip()` with no argument:
space, tab, newline, carriage return, vertical tab, form feed. -/
def pyIsSpace (c : Char) : Bool :=
  c = ' ' || c = '\t' || c = '\n' || c = '\r' ||
  c = Char.ofNat 11 || c = Char.ofNat 12

/-- Python `s.strip()`. -/
def pyStrip (s : String) : String :=
  String.mk (((s.data.dropWhile pyIsSpace).reverse.dropWhile pyIsSpace).reverse)

/-- Python `s.strip(ch)` for a single character `ch` (strips every
leading and trailing occurrence). -/
def pyStripChar (ch : Char) (s : String) : String :=
  String.mk (((s.data.dropWhile (· = ch)).reverse.dropWhile (· = ch)).reverse)

/-- Python `s[:n]` for `n ≥ 0`. -/
def pyTake (n : Nat) (s : String) : String := String.mk (s.data.take n)

/-- Python `s[n:]` for `n ≥ 0`. -/
def pyDrop (n : Nat) (s : String) : String := String.mk (s.data.drop n)

/-- Python `s[:i]` where `i` may be negative (only `i ≥ -len` occurs):
a negative index counts from the end of the string. -/
def pySliceTo (s : String) (i : Int) : String :=
  if 0 ≤ i then pyTake i.toNat s
  else String.mk (s.data.take (s.data.length - i.natAbs))

/-- Python `s[i:]` for `i ≥ 0` (the only case the embedded code needs:
every `txt[idx+1:]` has `idx ≥ -1`). -/
def pySliceFrom (s : String) (i : Int) : String := pyDrop i.toNat s

/-- Python `s[1:-1]` (used to peel the delimiters off a block). -/
def pyPeel (s : String) : String := String.mk ((s.data.drop 1).dropLast)

/-- Python `s[:-1]` (note: on the empty string this is the empty string,
and it is also what `s[:idx]` computes when `find` returned `-1`). -/
def pyDropLastChar (s : String) : String := String.mk s.data.dropLast

/-- Helper for `pyFind`: first index `≥ i` at which `needle` occurs in
`hay`, Python-style (`-1` when absent). -/
def pyFindAux (needle : List Char) : List Char → Nat → Int
  | hay, i =>
    if needle.isPrefixOf hay then Int.ofNat i
    else
      match hay with
      | [] => -1
      | _ :: t => pyFindAux needle t (i + 1)

/-- Python `s.find(sub)`. -/
def pyFind (s sub : String) : Int := pyFindAux sub.data s.data 0

/-- Python `s.find(sub, start)` with `start ≥ 0`: the returned index is
absolute. -/
def pyFindFrom (s sub : String) (start : Int) : Int :=
  let st := start.toNat
  if st ≤ s.data.length then pyFindAux sub.data (s.data.drop st) st else -1

/-- Python `s.count(c)` for a single-character pattern. -/
def pyCountChar (s : String) (c : Char) : Nat := s.data.count c

/-- Python `s.endswith(suf)`. -/
def pyEndsWith (s suf : String) : Bool := suf.data.isSuffixOf s.data

/-- Python `s.startswith(pre)`. -/
def pyStartsWith (s pre : String) : Bool := pre.data.isPrefixOf s.data

/-- Python `s.lower()` (ASCII data only in these files). -/
def pyLower (s : String) : String := String.mk (s.data.map Char.toLower)

/-- Python `s.replace(old, new)` for single-character `old`/`new`
(the code only replaces `'\n'` and `'\t'` by spaces). -/
def pyReplaceChar (s : String) (old new : Char) : String :=
  String.mk (s.data.map (fun c => if c = old then new else c))

/-- Helper for `pySplitWs`: split a character list on runs of
whitespace, dropping empty pieces — the behaviour of Python
`s.split()` with no argument. -/
def pySplitWsAux : List Char → List Char → List String
  | [], acc => if acc.isEmpty then [] else [String.mk acc.reverse]
  | c :: t, acc =>
    if pyIsSpace c then
      if acc.isEmpty then pySplitWsAux t []
      else String.mk acc.reverse :: pySplitWsAux t []
    else pySplitWsAux t (c :: acc)

/-- Python `s.split()` (no argument). -/
def pySplitWs (s : String) : List String := pySplitWsAux s.data []

/-- Python `s.split(sep)` for a single-character separator (keeps empty
pieces), used for `rec[1:].split('.')`. -/
def pySplitChar (s : String) (sep : Char) : List String :=
  (s.data.splitOn sep).map String.mk

/-- `re.sub(' +', ' ', s)`: collapse every run of spaces to one space
(structurally recursive: a space consumes the run it heads one
character at a time). -/
def collapseSpaces : List Char → List Char
  | [] => []
  | [c] => [c]
  | c :: c2 :: t =>
    if c = ' ' && c2 = ' ' then collapseSpaces (c2 :: t)
    else c :: collapseSpaces (c2 :: t)

/-- `re.sub(' +', ' ', s)` on strings. -/
def pyCollapseSpaces (s : String) : String := String.mk (collapseSpaces s.data)

/-- Value of a list of decimal digit characters. -/
def digitsVal (l : List Char) : Nat :=
  l.foldl (fun a c => 10 * a + (c.toNat - '0'.toNat)) 0

/-- Python `int(s)` on an already-stripped string: optional sign then a
nonempty run of decimal digits; anything else raises `ValueError`
(here `none`). -/
def parsePyInt (s : String) : Option Int :=
  match s.data with
  | [] => none
  | '+' :: ds =>
    if ds ≠ [] && ds.all Char.isDigit then some (Int.ofNat (digitsVal ds)) else none
  | '-' :: ds =>
    if ds ≠ [] && ds.all Char.isDigit then some (-Int.ofNat (digitsVal ds)) else none
  | ds =>
    if ds.all Char.isDigit then some (Int.ofNat (digitsVal ds)) else none

/-- Python `float(s)` on an already-stripped string, restricted to the
finite decimal literals `[+-]? digits [. digits] | [+-]? . digits`
that the LITTLE_R fixed-width format carries (exponent notation and
the `inf`/`nan` keywords never occur in these files and are not
modelled; on them this embedding fails where Python would succeed,
which no claim exercises). -/
def parsePyFloat (s : String) : Option Rat :=
  let core : List Char → Option Rat := fun ds =>
    match ds.splitOn '.' with
    | [ip] =>
      if ip ≠ [] && ip.all Char.isDigit then
        some (mkRat (Int.ofNat (digitsVal ip)) 1)
      else none
    | [ip, fp] =>
      if (ip ≠ [] || fp ≠ []) && ip.all Char.isDigit && fp.all Char.isDigit then
        some (mkRat (Int.ofNat (digitsVal ip * 10 ^ fp.length + digitsVal fp))
          (10 ^ fp.length))
      else none
    | _ => none
  match s.data with
  | [] => none
  | '+' :: ds => core ds
  | '-' :: ds => (core ds).map Rat.neg
  | ds => core ds

/-! ### LITTLE_R fixed-width record codec (`measurements/little_r.py`)

Values held in parsed headers and data rows: Python `str`, `bool`,
`int`, `float` (modelled as `Rat`), plus `np.nan`.  Pandas DataFrames
carry `np.nan` in cells whose field failed to decode, so `Val.nan`
also plays the role of the missing cell below.
-/

inductive Val where
  | vstr (s : String)
  | vbool (b : Bool)
  | vint (n : Int)
  | vflt (q : Rat)
  | nan
deriving DecidableEq, Repr

/-- Python `==` between one of our values and an int literal
(`val == self.nan_value`, `row[firstcol] == ending_record_value`):
numbers compare by value, `True`/`False` compare as `1`/`0`, strings
never equal an int, and `np.nan` compares unequal to everything. -/
def valEqInt (v : Val) (k : Int) : Bool :=
  match v with
  | .vint n => n = k
  | .vflt q => q = mkRat k 1
  | .vbool b => (if b then (1 : Int) else 0) = k
  | .vstr _ => false
  | .nan => false

/-- `little_r.boolean`: strip, lowercase, `'t'`/`'true'` are `True`,
everything else is `False`. -/
def pyBoolean (s : String) : Bool :=
  let t := pyLower (pyStrip s)
  t = "t" || t = "true"

/-- The four type letters of the format table (`A`, `L`, `I`, default
float), as resolved by `Report.__init__`. -/
inductive DType where
  | dstr
  | dbool
  | dint
  | dflt
deriving DecidableEq, Repr

/-- `header_records`, the module-level ordered table of
`(field, format)` pairs. -/
def header_records : List (String × String) :=
  [("Latitude", "F20.5"),
   ("Longitude", "F20.5"),
   ("ID", "A40"),
   ("Name", "A40"),
   ("FM-Code", "A40"),
   ("Source", "A40"),
   ("Elevation", "F20.5"),
   ("Valid fields", "I10"),
   ("Num. errors", "I10"),
   ("Num. warnings", "I10"),
   ("Sequence number", "I10"),
   ("Num. duplicates", "I10"),
   ("Is sounding?", "L"),
   ("Is bogus?", "L"),
   ("Discard?", "L"),
   ("Unix time", "I10"),
   ("Julian day", "I10"),
   ("Date", "A20"),
   ("SLP", "F13.5"),
   ("SLP QC", "I7"),
   ("Ref Pressure", "F13.5"),
   ("Ref Pressure QC", "I7"),
   ("Ground Temp", "F13.5"),
   ("Ground Temp QC", "I7"),
   ("SST", "F13.5"),
   ("SST QC", "I7"),
   ("SFC Pressure", "F13.5"),
   ("SFC Pressure QC", "I7"),
   ("Precip", "F13.5"),
   ("Precip QC", "I7"),
   ("Daily Max T", "F13.5"),
   ("Daily Max T QC", "I7"),
   ("Daily Min T", "F13.5"),
   ("Daily Min T QC", "I7"),
   ("Night Min T", "F13.5"),
   ("Night Min T QC", "I7"),
   ("3hr Pres Change", "F13.5"),
   ("3hr Pres Change QC", "I7"),
   ("24hr Pres Change", "F13.5"),
   ("24hr Pres Change QC", "I7"),
   ("Cloud cover", "F13.5"),
   ("Cloud cover QC", "I7"),
   ("Ceiling", "F13.5"),
   ("Ceiling QC", "I7")]

/-- `data_records`, the module-level ordered table for data lines. -/
def data_records : List (String × String) :=
  [("Pressure (Pa)", "F13.5"),
   ("Pressure (Pa) QC", "I7"),
   ("Height (m)", "F13.5"),
   ("Height (m) QC", "I7"),
   ("Temperature (K)", "F13.5"),
   ("Temperature (K) QC", "I7"),
   ("Dew point (K)", "F13.5"),
   ("Dew point (K) QC", "I7"),
   ("Wind speed (m/s)", "F13.5"),
   ("Wind speed (m/s) QC", "I7"),
   ("Wind direction (deg)", "F13.5"),
   ("Wind direction (deg) QC", "I7"),
   ("Wind U (m/s)", "F13.5"),
   ("Wind U (m/s) QC", "I7"),
   ("Wind V (m/s)", "F13.5"),
   ("Wind V (m/s) QC", "I7"),
   ("Relative humidity (%)", "F13.5"),
   ("Relative humidity (%) QC", "I7"),
   ("Thickness (m)", "F13.5"),
   ("Thickness (m) QC", "I7")]

/-- `rec[0].lower()` dispatch of `Report.__init__`: `'a'` string,
`'l'` boolean, `'i'` integer, anything else float. -/
def dtypeOfRec (rec : String) : DType :=
  match (pyLower (pyTake 1 rec)).data with
  | ['a'] => .dstr
  | ['l'] => .dbool
  | ['i'] => .dint
  | _ => .dflt

/-- `int(rec[1:].split('.')[0])` with the `ValueError` fallback to the
default field length `10` (hit by the `L` records, whose tail is
empty).  All widths in the two tables are positive. -/
def fieldlenOfRec (rec : String) : Nat :=
  match parsePyInt ((pySplitChar (pyDrop 1 rec) '.').headD "") with
  | some n => n.toNat
  | none => 10

/-- A resolved field specification: name, decoder tag, width. -/
def mkSpecs (records : List (String × String)) : List (String × DType × Nat) :=
  records.map (fun fr => (fr.1, dtypeOfRec fr.2, fieldlenOfRec fr.2))

def headerSpecs : List (String × DType × Nat) := mkSpecs header_records
def dataSpecs : List (String × DType × Nat) := mkSpecs data_records

/-- `nan_value = -888888`, the missing-data sentinel. -/
def nanValueInt : Int := -888888

/-- One `val = dtype(val)` coercion: `str` and `boolean` never fail,
`int`/`float` fail (`ValueError`) on text they cannot parse. -/
def pyDecodeRaw (d : DType) (s : String) : Option Val :=
  match d with
  | .dstr => some (.vstr s)
  | .dbool => some (.vbool (pyBoolean s))
  | .dint => (parsePyInt s).map .vint
  | .dflt => (parsePyFloat s).map .vflt

/-- `if val == self.nan_value: val = np.nan` after a successful
coercion. -/
def nanSub (v : Val) : Val := if valEqInt v nanValueInt then .nan else v

/-- Decode one stripped fixed-width slice: coercion then sentinel
substitution; `none` means the `ValueError` path, which drops the
field from the record. -/
def decodeField (d : DType) (s : String) : Option Val :=
  (pyDecodeRaw d s).map nanSub

/-- The per-line loop shared by `_read_header` and `_read_data`: for
each field in order, slice exactly `fieldlen` characters off the front
of the line, strip, coerce; on failure the field is skipped; in every
case the line then advances by `fieldlen` (`line = line[fieldlen:]`
sits outside the `try`). -/
def decodeFields : List (String × DType × Nat) → String → List (String × Val)
  | [], _ => []
  | (k, d, w) :: rest, line =>
    let raw := pyStrip (pyTake w line)
    match decodeField d raw with
    | some v => (k, v) :: decodeFields rest (pyDrop w line)
    | none => decodeFields rest (pyDrop w line)

/-- Python dict lookup on an association list (first binding wins;
our insertion discipline keeps keys unique). -/
def pyDictGet (l : List (String × Val)) (k : String) : Option Val :=
  match l.find? (fun p => p.1 = k) with
  | some p => some p.2
  | none => none

/-- Python dict assignment: update the binding in place if the key
exists, else append it. -/
def pyDictSet (l : List (String × Val)) (k : String) (v : Val) :
    List (String × Val) :=
  if (l.find? (fun p => p.1 = k)).isSome then
    l.map (fun p => if p.1 = k then (p.1, v) else p)
  else l ++ [(k, v)]

/-- A parsed header or data record: field name to value, in field
order, fields whose coercion failed absent. -/
abbrev RecordD := List (String × Val)

/-- `_read_header`: pop one line; the empty readline result (end of
file) is `none` here, modelled by the empty list of remaining lines. -/
def readHeader (lines : List String) : Option RecordD × List String :=
  match lines with
  | [] => (none, [])
  | l :: rest => (some (decodeFields headerSpecs l), rest)

/-- `firstcol = next(iter(self.data_dtypes))`. -/
def firstDataCol : String := ((dataSpecs.head?).map (fun p => p.1)).getD ""

/-- The `-777777` default of `_read_data`'s `ending_record_value`. -/
def endingRecordValue : Int := -777777

/-- The `while True` loop of `_read_data`: decode a full data line,
look up the first column (`KeyError` when its coercion failed —
including the end-of-file case where `readline` returns `''`
forever), stop on the terminator sentinel and then demand a trailer
line of exactly three whitespace-separated tokens
(`assert (len(line.split()) == 3)`). -/
def readDataLoop : List String → List RecordD →
    Except String (List RecordD × List String)
  | [], _ => .error "KeyError"
  | line :: rest, acc =>
    let row := decodeFields dataSpecs line
    match pyDictGet row firstDataCol with
    | none => .error "KeyError"
    | some v =>
      if valEqInt v endingRecordValue then
        match rest with
        | [] => .error "AssertionError"
        | trailer :: rest2 =>
          if (pySplitWs trailer).length = 3 then .ok (acc.reverse, rest2)
          else .error "AssertionError"
      else readDataLoop rest (row :: acc)

/-- `_read_data`, returning the accumulated rows (the terminator line
is discarded, the trailer consumed) and the unread remainder. -/
def readData (lines : List String) :
    Except String (List RecordD × List String) :=
  readDataLoop lines []

/-- `pd.to_datetime(s, format='%Y%m%d%H%M%S')`: succeeds exactly on a
14-digit string (calendar range checks, which no claim exercises, are
not modelled); the string itself serves as the timestamp, equal
strings denoting equal timestamps. -/
def toDatetime (s : String) : Option String :=
  if s.length = 14 && s.data.all Char.isDigit then some s else none

/-- One row of the unified table `self.df`: the `datetime` index, the
`ID` tag, and the cells of the twenty data columns
(`pd.DataFrame(data, columns=self.data_dtypes.keys())` fills a
missing field with `np.nan`). -/
structure Row where
  datetime : String
  id : String
  cells : List (String × Val)
deriving DecidableEq, Repr

/-- The twenty data column names, in table order. -/
def dataColumns : List String := data_records.map (fun p => p.1)

/-- DataFrame construction from a decoded record: every data column
present, absent fields as `np.nan`. -/
def completeCells (r : RecordD) : List (String × Val) :=
  dataColumns.map (fun c => (c, (pyDictGet r c).getD .nan))

/-- The state of a `Report` object as `__init__` leaves it: `self.df`
(`None` until a read), and `self.obs`, the ID-to-header mapping in
insertion order (keys are the decoded `hdr['ID']` values). -/
structure ReportState where
  df : Option (List Row)
  obs : List (Val × RecordD)
deriving DecidableEq, Repr

/-- `Report()` with no filename: `self.df = None`, `self.obs = {}`. -/
def freshReport : ReportState := { df := none, obs := [] }

/-- Look up `hdr[k]` (`KeyError` when the field was dropped by a
coercion failure). -/
def hdrGet (h : RecordD) (k : String) : Except String Val :=
  match pyDictGet h k with
  | some v => .ok v
  | none => .error "KeyError"

/-- The body of `read`'s `while hdr is not None` loop: read the data
block of the current header, stamp its rows with the header's parsed
date and ID, then read the next header; the loop ends when `readline`
hits end of file.  Fuel is an upper bound on iterations; each
iteration consumes at least two lines, so `lines.length + 1` never
runs out. -/
def readLoop : Nat → RecordD → List String → List Row →
    Except String (List Row)
  | 0, _, _, _ => .error "FUEL"
  | fuel + 1, hdr, lines, acc => do
    let (partials, rest) ← readData lines
    let dateV ← hdrGet hdr "Date"
    let dateS ← match dateV with
                | .vstr s => .ok s
                | _ => .error "TypeError"
    let ts ← match toDatetime dateS with
             | some t => .ok t
             | none => .error "ValueError"
    let idV ← hdrGet hdr "ID"
    let idS ← match idV with
              | .vstr s => .ok s
              | _ => .error "TypeError"
    let rows := partials.map
      (fun p => { datetime := ts, id := idS, cells := completeCells p })
    match rest with
    | [] => .ok (acc ++ rows)
    | l2 :: rest2 =>
      readLoop fuel (decodeFields headerSpecs l2) rest2 (acc ++ rows)

/-- `Report.read`: read the first header — on an empty file
`_read_header` returns `None` and the following `hdr['ID']`
subscription raises `TypeError`; insert the FIRST header into
`self.obs` if its ID is new (this insertion happens once, before the
loop, so later headers are never added); then alternate data blocks
and headers, and set `self.df` to the concatenated time-indexed
table. -/
def readReport (st : ReportState) (lines : List String) :
    Except String ReportState := do
  match lines with
  | [] => .error "TypeError"
  | l :: rest =>
    let hdr := decodeFields headerSpecs l
    let idV ← hdrGet hdr "ID"
    let obs1 :=
      if (st.obs.find? (fun p => p.1 = idV)).isSome then st.obs
      else st.obs ++ [(idV, hdr)]
    let rows ← readLoop (lines.length + 1) hdr rest []
    .ok { df := some rows, obs := obs1 }

/-! ### Concrete LITTLE_R inputs

Helpers that lay out fixed-width lines for the concrete test files
used by the claims below: each `(width, text)` pair becomes a field of
exactly `width` columns, the text left-justified and space-padded. -/

def padField (w : Nat) (s : String) : String :=
  s ++ String.mk (List.replicate (w - s.length) ' ')

def fixedLine (fields : List (Nat × String)) : String :=
  fields.foldl (fun acc p => acc ++ padField p.1 p.2) ""

/-- A header line up to and including the `Date` field (columns
0–340); the trailing optional value/QC pairs are left absent, which
the codec tolerates (their coercions fail and the fields are
dropped). -/
def mkHeaderLine (id name lat lon elev sounding date : String) : String :=
  fixedLine
    [(20, lat), (20, lon), (40, id), (40, name), (40, "FM-35"),
     (40, "SYNTHETIC"), (20, elev), (10, "6"), (10, "0"), (10, "0"),
     (10, "0"), (10, "0"), (10, sounding), (10, "F"), (10, "F"),
     (10, "0"), (10, "36"), (20, date)]

/-- A data line carrying only a pressure value in the first column. -/
def mkDataLine (pressure : String) : String := fixedLine [(13, pressure)]

/-- The `-777777` end-of-data-block line. -/
def termLine : String := "-777777.00000"

/-- A `1 1 0` record-count trailer line. -/
def trailerLine : String := "1 1 0"

/-! ### `Report.to_wrf_nudging` and `Report.to_little_r` -/

/-- Effectful map over a list in the `Except` monad, stopping at the
first failure (the behaviour of a Python `for` loop whose body can
raise). -/
def exMapM (f : α → Except String β) : List α → Except String (List β)
  | [] => .ok []
  | a :: t => do
    let b ← f a
    let bs ← exMapM f t
    .ok (b :: bs)

/-- Python truthiness of a value, as used by
`1 if not meta['Is sounding?'] else len(dftime)`: a string is truthy
iff nonempty, numbers iff nonzero, and `np.nan` is truthy. -/
def pythonTruthy (v : Val) : Bool :=
  match v with
  | .vstr s => s ≠ ""
  | .vbool b => b
  | .vint n => n ≠ 0
  | .vflt q => q.num ≠ 0
  | .nan => true

/-- Python `str(val)` for the values that reach
`str(meta['Is sounding?'])[:1]` (booleans; the other cases are given
their obvious renderings and are never hit). -/
def pyStr (v : Val) : String :=
  match v with
  | .vbool true => "True"
  | .vbool false => "False"
  | .vstr s => s
  | .vint n => toString n
  | .vflt _ => "float"
  | .nan => "nan"

/-- `pd.isna` on a cell. -/
def isna (v : Val) : Bool := v = .nan

/-- Cell access on a row (`np.nan` default mirrors how the frames this
code reaches are built: every data column is materialised at
DataFrame construction, so the default is only a totaliser). -/
def getCell (r : Row) (c : String) : Val := (pyDictGet r.cells c).getD .nan

/-- First-occurrence-order `unique()` of pandas. -/
def pyUnique [DecidableEq α] (l : List α) : List α :=
  l.foldl (fun acc x => if x ∈ acc then acc else acc ++ [x]) []

/-- The loop `for col in df.columns: if not col.endswith('QC'):
df.loc[pd.isna(df[col]), col+' QC'] = np.nan` on one row's cells:
wherever a value column is missing, its paired QC column is forced to
missing as well (a value column absent from the frame cannot occur
here and is passed over). -/
def qcFixCells (cells : List (String × Val)) : List (String × Val) :=
  dataColumns.foldl
    (fun acc c =>
      if pyEndsWith c "QC" then acc
      else
        match pyDictGet acc c with
        | some v => if isna v then pyDictSet acc (c ++ " QC") .nan else acc
        | none => acc)
    cells

/-- `df.fillna(self.nan_value)` on one row. -/
def fillnaVal (v : Val) : Val := if v = .nan then .vint nanValueInt else v

def fillnaCells (cells : List (String × Val)) : List (String × Val) :=
  cells.map (fun p => (p.1, fillnaVal p.2))

/-- The six nudging variables and their QC columns, in the order the
`outputs` list is assembled. -/
def outputCols : List String :=
  (["Pressure (Pa)", "Height (m)", "Temperature (K)",
    "Wind U (m/s)", "Wind V (m/s)", "Relative humidity (%)"]).foldr
    (fun c acc => c :: (c ++ " QC") :: acc) []

/-- The twelve values `row.values` of one written data line: the row
after QC fixing, sentinel filling and column selection. -/
def processedRow (r : Row) : List Val :=
  let cells := fillnaCells (qcFixCells r.cells)
  outputCols.map (fun c => (pyDictGet cells c).getD .nan)

/-- `meta[k] = meta[k][:n]` for the four string metadata fields
(`TypeError` on a non-string cannot occur on headers this code
reads). -/
def truncField (m : RecordD) (k : String) (n : Nat) :
    Except String RecordD :=
  match pyDictGet m k with
  | none => .error "KeyError"
  | some (.vstr s) => .ok (pyDictSet m k (.vstr (pyTake n s)))
  | some _ => .error "TypeError"

/-- `meta[k] = str(meta[k])[:1]` for the two boolean flags. -/
def strifyField (m : RecordD) (k : String) : Except String RecordD :=
  match pyDictGet m k with
  | none => .error "KeyError"
  | some v => .ok (pyDictSet m k (.vstr (pyTake 1 (pyStr v))))

/-- The six in-place updates `to_wrf_nudging` performs on
`meta = self.obs[obs_id]` — on the stored header itself, not on a
copy. -/
def metaTruncate (m : RecordD) : Except String RecordD := do
  let m ← truncField m "ID" 5
  let m ← truncField m "Name" 75
  let m ← truncField m "FM-Code" 18
  let m ← truncField m "Source" 16
  let m ← strifyField m "Is sounding?"
  strifyField m "Is bogus?"

/-- One per-timestamp block of the nudging file: the four metadata
lines (timestamp; latitude/longitude; ID/name; platform, source,
elevation, the two one-character flags and the level count) followed
by the fixed-width data lines, here kept as the written field values
(`' {:11.3f}'.format` per value). -/
structure TimeBlock where
  time : String
  lat : Val
  lon : Val
  obsId : String
  name : String
  fmcode : String
  source : String
  elev : Val
  sounding : String
  bogus : String
  nlevels : Nat
  rows : List (List Val)
deriving DecidableEq, Repr

/-- Result of a `to_wrf_nudging` call that did not raise: the blocks
written to the output file (`none` when an early `return` wrote
nothing) and the post-call object state. -/
structure WrfResult where
  written : Option (List TimeBlock)
  state : ReportState
deriving DecidableEq, Repr

/-- Fetch a metadata field for one of the `'{...}'.format(**meta)`
lines (`KeyError` when the field was dropped during the header
read). -/
def metaGet (m : RecordD) (k : String) : Except String Val :=
  match pyDictGet m k with
  | some v => .ok v
  | none => .error "KeyError"

/-- Same, for the fields rendered with a string format spec. -/
def metaGetStr (m : RecordD) (k : String) : Except String String := do
  match ← metaGet m k with
  | .vstr s => .ok s
  | _ => .error "TypeError"

/-- The `for time in df.index.unique()` writer loop, building one
`TimeBlock` per distinct timestamp in first-appearance order;
`nlev = 1 if not meta['Is sounding?'] else len(dftime)` tests the
truthiness of the (by now stringified) flag. -/
def buildBlocks (m : RecordD) (rows : List (String × List Val)) :
    Except String (List TimeBlock) :=
  exMapM (fun t => do
    let sub := rows.filter (fun p => p.1 = t)
    let lat ← metaGet m "Latitude"
    let lon ← metaGet m "Longitude"
    let idS ← metaGetStr m "ID"
    let nameS ← metaGetStr m "Name"
    let fm ← metaGetStr m "FM-Code"
    let src ← metaGetStr m "Source"
    let elev ← metaGet m "Elevation"
    let sndV ← metaGet m "Is sounding?"
    let sndS ← match sndV with
               | .vstr s => .ok s
               | _ => .error "TypeError"
    let bogS ← metaGetStr m "Is bogus?"
    let nlev := if !(pythonTruthy sndV) then 1 else sub.length
    .ok { time := t, lat := lat, lon := lon, obsId := idS, name := nameS,
          fmcode := fm, source := src, elev := elev, sounding := sndS,
          bogus := bogS, nlevels := nlev, rows := sub.map (fun p => p.2) })
    (pyUnique (rows.map (fun p => p.1)))

/-- `Report.to_wrf_nudging(fname, overwrite, obs_id)`.

`hasattr(self, 'df')` is true for every object `__init__` built (it
always assigns `self.df`), so that guard never fires and the first
real test subscripts `self.df` — a `TypeError` when no read or init
has happened and `self.df` is still `None`.  `os.path.isfile(fname)`
is the `fileExists` parameter.  The returned state reflects that
`meta = self.obs[obs_id]` aliases the stored header: the truncation
step mutates `self.obs` in place. -/
def selectObs (d : List Row) (obs_id : Option String) :
    Except String (String × List Row) :=
  match obs_id with
  | none =>
    -- assert (len(self.df['ID'].unique()) == 1); obs_id = self.df.iloc[0]['ID']
    if (pyUnique (d.map (fun r => r.id))).length = 1 then
      match d with
      | [] => .error "IndexError"
      | r :: _ => .ok (r.id, d)
    else .error "AssertionError"
  | some gid => .ok (gid, d.filter (fun r => r.id = gid))

/-- `meta = self.obs[obs_id]` followed by the six in-place field
updates: returns the truncated header together with the whole mapping
as the mutation leaves it. -/
def obsTruncateAt (obs : List (Val × RecordD)) (key : String) :
    Except String (RecordD × List (Val × RecordD)) :=
  match obs.find? (fun p => p.1 = Val.vstr key) with
  | none => .error "KeyError"
  | some p =>
    match metaTruncate p.2 with
    | .error e => .error e
    | .ok m =>
      .ok (m, obs.map (fun q => if q.1 = Val.vstr key then (q.1, m) else q))

def toWrfNudging (st : ReportState) (_fname : String) (overwrite : Bool)
    (obs_id : Option String) (fileExists : Bool) :
    Except String WrfResult :=
  match st.df with
  | none => .error "TypeError"
  | some d =>
    if d.any (fun r => isna (getCell r "Pressure (Pa)")) then
      .ok { written := none, state := st }
    else if fileExists && !overwrite then
      .ok { written := none, state := st }
    else
      match selectObs d obs_id with
      | .error e => .error e
      | .ok (key, drows) =>
        match obsTruncateAt st.obs key with
        | .error e => .error e
        | .ok (m, obs2) =>
          match buildBlocks m
              (drows.map (fun r => (r.datetime, processedRow r))) with
          | .error e => .error e
          | .ok blocks =>
            .ok { written := some blocks,
                  state := { df := st.df, obs := obs2 } }

/-- `Report.to_little_r`: its body is the single statement
`assert (self.df is not None), print(...)` — when `self.df` is `None`
it prints the message and raises `AssertionError`; otherwise it does
nothing and the state is untouched. -/
def toLittleR (st : ReportState) (_fname : String) (_overwrite : Bool) :
    Except String (Unit × ReportState) :=
  if st.df = none then .error "AssertionError" else .ok ((), st)

/-! ### OpenFOAM-style nested-block reader (`sowfa/utils.py`) -/

/-- The property-tree values `InputFile` produces: scalars (float,
boolean, quote-stripped string), parenthesis lists and brace
dictionaries.  List items and the odd top-level entry can be
anonymous, so entry names are optional. -/
inductive PVal where
  | pstr (s : String)
  | pflt (q : Rat)
  | pbool (b : Bool)
  | plist (xs : List PVal)
  | pdict (entries : List (Option String × PVal))

/-- The three container tags `_split_defs` attaches to an entry:
`None` (a `key value;` scalar), `dict` (`{...}`) or `list`
(`(...)`). -/
inductive ContTag where
  | scalar
  | cdict
  | clist
deriving DecidableEq, Repr

/-- `true_values` of `InputFile`. -/
def trueValues : List String := ["true", "t", "on", "yes", "y"]

/-- `false_values` of `InputFile`. -/
def falseValues : List String := ["false", "f", "off", "no", "n", "none"]

/-- Python dict assignment on the (optionally named) property map. -/
def propSet (l : List (Option String × PVal)) (k : Option String)
    (v : PVal) : List (Option String × PVal) :=
  if (l.find? (fun p => p.1 = k)).isSome then
    l.map (fun p => if p.1 = k then (p.1, v) else p)
  else l ++ [(k, v)]

/-- The `while Nopen != Nclose` hunt of `_split_defs`: starting from a
candidate end index, keep extending the block at the next closer
(searching from `idx+1`, as the code does) until opener and closer
counts in `txt[:idx]` agree.  A failed `find` makes `idx` zero, so
`txt[:0] = ''` trivially balances and the loop exits with an empty
block — the code has no mismatch check inside this loop. -/
def balanceLoop (txt : String) (bs be : Char) :
    Nat → Int → String → Except String (Int × String)
  | 0, _, _ => .error "FUEL"
  | fuel + 1, idx, blockdef =>
    if pyCountChar blockdef bs = pyCountChar blockdef be then
      .ok (idx, blockdef)
    else
      let idx2 := pyFindFrom txt (String.mk [be]) (idx + 1) + 1
      balanceLoop txt bs be fuel idx2 (pyStrip (pySliceTo txt idx2))

/-- One tokenized definition: optional name, raw text, container tag. -/
abbrev DefEntry := Option String × String × ContTag

/-- `_split_defs`: repeatedly peel a (possibly anonymous) name and the
following token off the front of the text; a trailing `;` makes a
scalar entry, otherwise the token must open a known block (`{` or
`(`) whose extent is found by closer search plus delimiter counting.
Fuel bounds loop iterations and `txt.length + 1` always suffices
(each iteration empties or strictly shortens `txt`). -/
def splitDefs : Nat → String → Except String (List DefEntry)
  | 0, _ => .error "FUEL"
  | fuel + 1, txt =>
    if txt.length = 0 then .ok []
    else do
      let (name, txtA) :=
        if txt.data.head? = some '(' then (none, txt)
        else
          let i := pyFind txt " "
          (some (pySliceTo txt i), pyStrip (pySliceFrom txt (i + 1)))
      let i2 := pyFind txtA " "
      let (tok, txtB) :=
        if i2 < 0 then (txtA, "") else (pyStrip (pySliceTo txtA i2), txtA)
      if pyEndsWith tok ";" then
        let entry : DefEntry := (name, pyDropLastChar tok, .scalar)
        let rest ← splitDefs fuel (pyStrip (pySliceFrom txtB (i2 + 1)))
        .ok (entry :: rest)
      else do
        let bs ← match tok.data.head? with
                 | some c => .ok c
                 | none => .error "IndexError"
        let (be, tag) ←
          match bs with
          | '{' => .ok ('}', ContTag.cdict)
          | '(' => .ok (')', ContTag.clist)
          | _ => .error "AssertionError"
        let idx0 := pyFindFrom txtB (String.mk [be]) 0 + 1
        if idx0 ≤ 0 then .error "AssertionError"
        else do
          let bd0 := pyCollapseSpaces (pyStrip (pySliceTo txtB idx0))
          let (idxF, bdF) ← balanceLoop txtB bs be (txtB.length + 2) idx0 bd0
          let entry : DefEntry := (name, bdF, tag)
          let rest ← splitDefs fuel (pyStrip (pySliceFrom txtB (idxF + 1)))
          .ok (entry :: rest)

/-- The scalar arm of `_parse`: a float cast first, then the
true/false literal sets, then a string with one round of
double-then-single quote stripping.  The `assert(defn.find(' ') < 0)`
consistency check raises on an embedded space. -/
def parseScalar (defn : String) : Except String PVal :=
  if 0 ≤ pyFind defn " " then .error "AssertionError"
  else
    match parsePyFloat defn with
    | some q => .ok (.pflt q)
    | none =>
      if (pyLower defn) ∈ trueValues then .ok (.pbool true)
      else if (pyLower defn) ∈ falseValues then .ok (.pbool false)
      else .ok (.pstr (pyStripChar '\'' (pyStripChar '"' defn)))

/-- `_parse` on one tokenized definition, producing the value that
ends up attached to the parent container: a scalar decodes directly;
a block strips its outer delimiter pair and either (a list with no
inner parentheses) whitespace-splits into anonymous scalars or
recursively tokenizes and parses, dictionaries keyed by entry name
and lists appending values with names dropped. -/
def parseVal : Nat → String → ContTag → Except String PVal
  | 0, _, _ => .error "FUEL"
  | fuel + 1, defn, tag =>
    let defn := pyStrip defn
    match tag with
    | .scalar => parseScalar defn
    | .clist =>
      let inner := pyStrip (pyPeel defn)
      if pyFind inner "(" < 0 && pyFind inner ")" < 0 then do
        let items ← exMapM (fun w => parseScalar (pyStrip w)) (pySplitWs inner)
        .ok (.plist items)
      else do
        let entries ← splitDefs (inner.length + 1) inner
        let items ← exMapM (fun e => parseVal fuel e.2.1 e.2.2) entries
        .ok (.plist items)
    | .cdict => do
      let inner := pyStrip (pyPeel defn)
      let entries ← splitDefs (inner.length + 1) inner
      let pairs ← exMapM (fun e => do
        let v ← parseVal fuel e.2.1 e.2.2
        .ok (e.1, v)) entries
      .ok (.pdict (pairs.foldl (fun acc p => propSet acc p.1 p.2) []))

/-- `readlines`: split the file content into lines, each keeping its
trailing newline (the last one possibly without). -/
def pyReadlinesAux : List Char → List Char → List String
  | [], acc => if acc.isEmpty then [] else [String.mk acc.reverse]
  | '\n' :: t, acc => String.mk (acc.reverse ++ ['\n']) :: pyReadlinesAux t []
  | c :: t, acc => pyReadlinesAux t (c :: acc)

def pyReadlines (s : String) : List String := pyReadlinesAux s.data []

/-- Per-line preprocessing of `__init__`: a stripped line beginning
with `#` is dropped; otherwise a `//` comment is cut (leaving the
stripped head); a line with neither is kept verbatim (newline and
all — the stripped copy is not written back). -/
def preprocessLine (l : String) : String :=
  let s := pyStrip l
  if pyStartsWith s "#" then ""
  else
    let i := pyFind s "//"
    if 0 ≤ i then pyStrip (pySliceTo s i) else l

/-- The `/*...*/` removal loop: each block runs from the first `/*` to
the first `*/` after it (`assert idx1 > idx0` on an unterminated
comment). -/
def stripBlockComments : Nat → String → Except String String
  | 0, _ => .error "FUEL"
  | fuel + 1, txt =>
    let i0 := pyFind txt "/*"
    if i0 < 0 then .ok txt
    else
      let i1 := pyFindFrom txt "*/" (i0 + 1)
      if i1 ≤ i0 then .error "AssertionError"
      else stripBlockComments fuel (pySliceTo txt i0 ++ pySliceFrom txt (i1 + 2))

/-- `InputFile.__init__` on the file's content: preprocess, flatten,
tokenize with `_split_defs`, parse each definition into
`self._properties`. -/
def inputFileProps (content : String) :
    Except String (List (Option String × PVal)) := do
  let lines := (pyReadlines content).map preprocessLine
  let txt := String.intercalate "\n" lines
  let txt ← stripBlockComments (txt.length + 1) txt
  let txt := pyReplaceChar txt '\n' ' '
  let txt := pyReplaceChar txt '\t' ' '
  let txt := pyStrip txt
  let entries ← splitDefs (txt.length + 1) txt
  entries.foldlM
    (fun props e => do
      let v ← parseVal (txt.length + 1) e.2.1 e.2.2
      .ok (propSet props e.1 v))
    []

/-! ### Rendering of written data values

`fmtstr = len(dftime.columns) * ' {:11.3f}'`: each cell of a written
data line is a space followed by the value right-justified in 11
columns with 3 decimals. -/

/-- Round the fraction `a / b` (with `b > 0`) to the nearest integer,
ties to even — the tie-breaking rule of Python float formatting. -/
def roundHalfEvenInt (a b : Int) : Int :=
  let f := Int.fdiv a b
  let r2 := 2 * (a - f * b)
  if r2 < b then f
  else if b < r2 then f + 1
  else if f % 2 = 0 then f
  else f + 1

/-- Zero-pad a fractional part to three digits. -/
def natPad3 (n : Nat) : String :=
  if n < 10 then "00" ++ toString n
  else if n < 100 then "0" ++ toString n
  else toString n

/-- `'{:11.3f}'.format` of the value `a / b` (with `b > 0`). -/
def fmt113Core (a b : Int) : String :=
  let s := roundHalfEvenInt (a * 1000) b
  let m := s.natAbs
  let core := (if s < 0 || (s = 0 && a < 0) then "-" else "") ++
    toString (m / 1000) ++ "." ++ natPad3 (m % 1000)
  String.mk (List.replicate (11 - core.length) ' ') ++ core

/-- `'{:11.3f}'.format` on a written cell (`np.nan` renders as a
right-justified `nan`; strings and booleans would raise and never
reach the writer). -/
def fmtFixed113 (v : Val) : String :=
  match v with
  | .vint n => fmt113Core n 1
  | .vflt q => fmt113Core q.num (Int.ofNat q.den)
  | .nan => "        nan"
  | _ => "ValueError"

/-- One written data line of the nudging file. -/
def renderDataLine (row : List Val) : String :=
  String.join (row.map (fun v => " " ++ fmtFixed113 v))

/-! ### Concrete inputs for the claims -/

/-- Two headers with distinct IDs, one data row each. -/
def c1File : List String :=
  [mkHeaderLine "AAAAA" "Tower A" "39.0" "-105.2" "100.0" "T" "20080205120000",
   mkDataLine "100000.0", termLine, trailerLine,
   mkHeaderLine "BBBBB" "Tower B" "40.0" "-104.9" "200.0" "T" "20080205130000",
   mkDataLine "90000.0", termLine, trailerLine]

/-- One header that is NOT a sounding (`Is sounding?` reads `F`), with
two data rows at its single timestamp. -/
def c3File : List String :=
  [mkHeaderLine "AAAAA" "Tower A" "39.0" "-105.2" "100.0" "F" "20080205120000",
   mkDataLine "100000.0", mkDataLine "90000.0", termLine, trailerLine]

/-- One sounding header whose ID and name exceed their output widths. -/
def c4File : List String :=
  [mkHeaderLine "STATIONAAA" "Tower Long Name" "39.0" "-105.2" "100.0" "T"
     "20080205120000",
   mkDataLine "100000.0", termLine, trailerLine]

/-- One header whose single data row carries the `-888888` sentinel in
the pressure column, so the stored pressure is `np.nan`. -/
def c10File : List String :=
  [mkHeaderLine "AAAAA" "Tower A" "39.0" "-105.2" "100.0" "T" "20080205120000",
   mkDataLine "-888888.00000", termLine, trailerLine]

/-- Unwrap a successful read (total so that states below are plain
terms; every use is backed by a theorem that the read succeeded). -/
def extractOkR (e : Except String ReportState) : ReportState :=
  match e with
  | .ok s => s
  | .error _ => freshReport

def c3State : ReportState := extractOkR (readReport freshReport c3File)
def c4State : ReportState := extractOkR (readReport freshReport c4File)
def c10State : ReportState := extractOkR (readReport freshReport c10File)

/-- The nested-list input of the nested-block balance property. -/
def c2Text : String := "a (b (c d) (e f));"

/-- An input whose doubled closer leaves the first `(` unmatched. -/
def c8Text : String := "a (( b );"

/-- Every data column of a row is materialised (true of every frame
`read` builds; `to_wrf_nudging` on a frame lacking a column would
raise `KeyError` in Python, a case outside this embedding). -/
def rowComplete (r : Row) : Bool :=
  dataColumns.all (fun c => (pyDictGet r.cells c).isSome)

/-- Did the call return normally (as opposed to raising)? -/
def exIsOk : Except String α → Bool
  | .ok _ => true
  | .error _ => false

/-- Unwrap a successful `to_wrf_nudging` call (total; every use is
backed by a proof that the call returned normally). -/
def extractOkW (e : Except String WrfResult) : WrfResult :=
  match e with
  | .ok r => r
  | .error _ => { written := none, state := freshReport }

/-- Claim-side restatement of the fixed-width walk, for comparison
with `decodeFields`: field `i` of a layout is sliced from the fixed
column range starting at the sum of the widths of the fields before
it, regardless of which fields decode; fields whose coercion fails
are omitted from the record. -/
def slicedFields : List (String × DType × Nat) → String → Nat →
    List (String × Val)
  | [], _, _ => []
  | (k, d, w) :: rest, line, off =>
    match decodeField d (pyStrip (pyTake w (pyDrop off line))) with
    | some v => (k, v) :: slicedFields rest line (off + w)
    | none => slicedFields rest line (off + w)

/-! ## Theorems for the claims -/

/-- **C1.** In `Report.read`, the `self.obs` insertion sits before the
`while` loop and is therefore performed only for the first header of
the file.  On `c1File` — H = 2 headers with the distinct IDs `AAAAA`
and `BBBBB`, one data row each — the read succeeds and yields the
claimed ΣD_i = 2 table rows (tagged with both IDs, confirming both
headers were consumed), but `self.obs` holds 1 entry, not H = 2 as
the claim requires. -/
theorem read_obs_misses_later_headers :
    exIsOk (readReport freshReport c1File) = true ∧
    (extractOkR (readReport freshReport c1File)).obs.map (fun p => p.1) =
      [Val.vstr "AAAAA"] ∧
    ((extractOkR (readReport freshReport c1File)).df.getD []).map
      (fun r => r.id) = ["AAAAA", "BBBBB"] := by
  refine ⟨by decide, by decide, by decide⟩

/-- **C2.** On `a (b (c d) (e f));` the closer search of
`_split_defs` restarts at `idx+1` and so skips the second of the two
adjacent closers `))`; the failed `find` then makes `idx` zero,
`txt[:0] = ''` counts as balanced, and an empty block is recorded for
`a`.  The parse therefore returns four top-level properties — `a`
bound to an empty list, `b` and an anonymous entry holding the two
sub-lists (with `f` decoding as the boolean literal `False`), and a
leftover `'' : ''` entry — instead of the single property
`a = [[c, d], [e, f]]` the claim requires. -/
theorem nested_list_parse_eval :
    inputFileProps c2Text =
    .ok [(some "a", .plist []),
         (some "b", .plist [.pstr "c", .pstr "d"]),
         (none, .plist [.pstr "e", .pbool false]),
         (some "", .pstr "")] := by
  rfl

/-- **C8.** `a (( b );` leaves its first `(` unmatched, yet the parse
returns normally: the balance loop's failed `find` yields an empty —
hence trivially balanced — block for `a`, and tokenization continues
on the remaining text.  No hard failure is raised, contradicting the
claim that every unmatched opener aborts the parse. -/
theorem unbalanced_opener_parse_eval :
    inputFileProps c8Text =
    .ok [(some "a", .plist []), (none, .plist [.pstr "b"])] := by
  rfl

/-- **C3.** Reading `c3File` stores a header whose `Is sounding?`
flag is the boolean `False`; `to_wrf_nudging` then writes a level
count of 2 (the row count at the block's single timestamp), not the
1 the claim requires for a non-sounding, because line 298 has already
replaced the flag by the string `'F'` and any nonempty string is
truthy under `not`. -/
theorem nudging_level_count_eval :
    ((extractOkR (readReport freshReport c3File)).obs.map
      (fun p => pyDictGet p.2 "Is sounding?") =
        [some (Val.vbool false)]) ∧
    exIsOk (toWrfNudging (extractOkR (readReport freshReport c3File))
      "out.txt" false none false) = true ∧
    ((extractOkW (toWrfNudging (extractOkR (readReport freshReport c3File))
      "out.txt" false none false)).written.map
        (fun bs => bs.map (fun b => (b.sounding, b.nlevels, b.rows.length))) =
      some [("F", 2, 2)]) := by
  refine ⟨by decide, by decide, by decide⟩

/-- **C5.** On a fresh `Report()` (no read, no init) the export
methods raise: `__init__` always assigns `self.df = None`, so the
`hasattr(self, 'df')` guard of `to_wrf_nudging` never fires and the
pressure test subscripts `None` (`TypeError`), while `to_little_r`'s
`assert` fails (`AssertionError`).  Neither is the reported,
exception-free no-op the claim requires. -/
theorem export_before_read_raises :
    toWrfNudging freshReport "out.txt" false none false =
      .error "TypeError" ∧
    toLittleR freshReport "out.txt" false = .error "AssertionError" := by
  exact ⟨rfl, rfl⟩

/-- **C4 (counterexample).** A successful `to_wrf_nudging` call on
the state read from `c4File` mutates `self.obs`: the stored header's
`ID` shrinks from `STATIONAAA` to `STATI` (and its boolean flags
become one-character strings), contradicting the claim that export
leaves `self.obs` unchanged. -/
theorem nudging_mutates_obs_counterexample :
    exIsOk (toWrfNudging c4State "out.txt" false none false) = true ∧
    c4State.obs.map (fun p => pyDictGet p.2 "ID") =
      [some (Val.vstr "STATIONAAA")] ∧
    (extractOkW (toWrfNudging c4State "out.txt" false none false)).state.obs.map
      (fun p => pyDictGet p.2 "ID") = [some (Val.vstr "STATI")] := by
  refine ⟨by decide, by decide, by decide⟩

theorem pyDrop_pyDrop (line : String) (a b : Nat) :
    pyDrop b (pyDrop a line) = pyDrop (a + b) line := by
  simp [pyDrop, List.drop_drop, Nat.add_comm]

theorem decodeFields_drop_eq_sliced
    (specs : List (String × DType × Nat)) :
    ∀ (off : Nat) (line : String),
      decodeFields specs (pyDrop off line) = slicedFields specs line off := by
  induction specs with
  | nil => intro off line; rfl
  | cons p rest ih =>
    intro off line
    obtain ⟨k, d, w⟩ := p
    simp only [decodeFields, slicedFields, pyDrop_pyDrop]
    cases h : decodeField d (pyStrip (pyTake w (pyDrop off line))) with
    | none => simp [h, ih (off + w) line]
    | some v => simp [h, ih (off + w) line]

/-- **C9.** The scan position advances by each field's declared width
whether or not its coercion succeeds: on any line, the sequential
`decodeFields` walk of either record layout equals the claim-side
`slicedFields`, which slices every field from the fixed column range
given by the prefix sum of the declared widths and omits exactly the
fields whose coercion fails. -/
theorem decode_advances_past_failed_fields (line : String) :
    decodeFields headerSpecs line = slicedFields headerSpecs line 0 ∧
    decodeFields dataSpecs line = slicedFields dataSpecs line 0 := by
  have hh := decodeFields_drop_eq_sliced headerSpecs 0 line
  have hd := decodeFields_drop_eq_sliced dataSpecs 0 line
  have h0 : pyDrop 0 line = line := rfl
  rw [h0] at hh hd
  exact ⟨hh, hd⟩

/-- Witness for C9: the characterisation applied to a concrete data
line whose first field decodes and whose remaining fields all fail. -/
theorem decode_advances_witness :
    decodeFields dataSpecs (mkDataLine "100000.0") =
      slicedFields dataSpecs (mkDataLine "100000.0") 0 :=
  (decode_advances_past_failed_fields (mkDataLine "100000.0")).2

/-- **C10.** When any stored pressure is `np.nan`, `to_wrf_nudging`
returns at its second guard, before the output-path check, the
metadata truncation and the writer: no exception, nothing written,
state unchanged — for every file name, overwrite flag, ID selection
and state of the output path.  (The completeness hypothesis restricts
to frames that materialise the pressure column, as every frame built
by `read` does; on others Python would raise `KeyError`.) -/
theorem nan_pressure_aborts_nudging
    (st : ReportState) (d : List Row) (fname : String) (ow : Bool)
    (oid : Option String) (fe : Bool)
    (hdf : st.df = some d)
    (_hwf : ∀ r ∈ d, (pyDictGet r.cells "Pressure (Pa)").isSome = true)
    (hnan : ∃ r ∈ d, getCell r "Pressure (Pa)" = Val.nan) :
    toWrfNudging st fname ow oid fe = .ok { written := none, state := st } := by
  obtain ⟨r, hr, hrn⟩ := hnan
  have hguard : d.any (fun x => isna (getCell x "Pressure (Pa)")) = true := by
    refine List.any_eq_true.mpr ⟨r, hr, ?_⟩
    simp [isna, hrn]
  unfold toWrfNudging
  rw [hdf]
  simp [hguard]

/-- Witness for C10 at `c10State` (whose single row's pressure is the
decoded `-888888` sentinel, hence `np.nan`), with the output file
present and overwrite off. -/
theorem nan_pressure_aborts_nudging_witness :
    toWrfNudging c10State "out.txt" false none true =
      .ok { written := none, state := c10State } :=
  nan_pressure_aborts_nudging c10State (c10State.df.getD []) "out.txt" false
    none true (by decide) (by decide) (by decide)

theorem readDataLoop_run (term trailer : String) (rest : List String)
    (h2 : ∃ v, pyDictGet (decodeFields dataSpecs term) firstDataCol = some v ∧
      valEqInt v endingRecordValue = true)
    (h3 : (pySplitWs trailer).length = 3) :
    ∀ (pre : List String) (acc : List RecordD),
      (∀ l ∈ pre, ∃ v,
        pyDictGet (decodeFields dataSpecs l) firstDataCol = some v ∧
        valEqInt v endingRecordValue = false) →
      readDataLoop (pre ++ term :: trailer :: rest) acc =
        .ok (acc.reverse ++ pre.map (fun l => decodeFields dataSpecs l), rest) := by
  intro pre
  induction pre with
  | nil =>
    intro acc _
    obtain ⟨v, hv, hvt⟩ := h2
    simp [readDataLoop, hv, hvt, h3]
  | cons l pre ih =>
    intro acc h1
    obtain ⟨v, hv, hvf⟩ := h1 l (by simp)
    have ih2 := ih (decodeFields dataSpecs l :: acc)
      (fun x hx => h1 x (List.mem_cons_of_mem l hx))
    simp only [List.cons_append, readDataLoop, hv, hvf]
    rw [if_neg (by simp [hvf])] at *
    have hap : pre.append (term :: trailer :: rest) =
        pre ++ term :: trailer :: rest := rfl
    rw [hap, ih2]
    simp

/-- **C7.** For a data block whose lines all decode in the first
column, the first line decoding to the `-777777` sentinel terminates
the block: `_read_data` returns exactly one row per preceding line,
the sentinel line itself is discarded, and reading resumes after the
three-token trailer. -/
theorem terminator_row_excluded
    (pre : List String) (term trailer : String) (rest : List String)
    (h1 : ∀ l ∈ pre, ∃ v,
      pyDictGet (decodeFields dataSpecs l) firstDataCol = some v ∧
      valEqInt v endingRecordValue = false)
    (h2 : ∃ v, pyDictGet (decodeFields dataSpecs term) firstDataCol = some v ∧
      valEqInt v endingRecordValue = true)
    (h3 : (pySplitWs trailer).length = 3) :
    readData (pre ++ term :: trailer :: rest) =
      .ok (pre.map (fun l => decodeFields dataSpecs l), rest) := by
  have h := readDataLoop_run term trailer rest h2 h3 pre [] h1
  simpa [readData] using h

/-- Witness for C7: one proper data line, then the sentinel line, the
`1 1 0` trailer and a leftover line. -/
theorem terminator_row_excluded_witness :
    readData [mkDataLine "100000.0", termLine, trailerLine, "leftover"] =
      .ok ([decodeFields dataSpecs (mkDataLine "100000.0")], ["leftover"]) :=
  terminator_row_excluded [mkDataLine "100000.0"] termLine trailerLine
    ["leftover"] (by decide) (by decide) (by decide)

theorem exBind_ok {α β : Type} {x : Except String α} {g : α → Except String β}
    {b : β} (h : x.bind g = .ok b) : ∃ a, x = .ok a ∧ g a = .ok b := by
  cases x with
  | error e => simp [Except.bind] at h
  | ok a => exact ⟨a, rfl, by simpa [Except.bind] using h⟩

theorem exMapM_mem {α β : Type} (f : α → Except String β) :
    ∀ (l : List α) (out : List β), exMapM f l = .ok out →
      ∀ b ∈ out, ∃ a ∈ l, f a = .ok b := by
  intro l
  induction l with
  | nil =>
    intro out h b hb
    simp only [exMapM] at h
    cases h
    simp at hb
  | cons a t ih =>
    intro out h b hb
    simp only [exMapM] at h
    obtain ⟨b0, hfa, h⟩ := exBind_ok h
    obtain ⟨bs, hft, h⟩ := exBind_ok h
    cases h
    rcases List.mem_cons.mp hb with hb0 | hbs
    · exact ⟨a, by simp, hb0 ▸ hfa⟩
    · obtain ⟨a2, ha2, hfa2⟩ := ih bs hft b hbs
      exact ⟨a2, List.mem_cons_of_mem a ha2, hfa2⟩

theorem find?_map_keyfix (f : String × Val → String × Val)
    (hf : ∀ p, (f p).1 = p.1) (c : String) :
    ∀ l : List (String × Val),
      List.find? (fun p => p.1 = c) (l.map f) =
        (List.find? (fun p => p.1 = c) l).map f := by
  intro l
  induction l with
  | nil => rfl
  | cons p t ih =>
    simp only [List.map_cons, List.find?]
    rw [hf p]
    by_cases hc : p.1 = c
    · simp [hc]
    · simp [hc, ih]

theorem find?_append_left {α : Type} (p : α → Bool) (x : α) :
    ∀ l1 l2 : List α, l1.find? p = some x → (l1 ++ l2).find? p = some x := by
  intro l1
  induction l1 with
  | nil => intro l2 h; simp [List.find?] at h
  | cons a t ih =>
    intro l2 h
    simp only [List.find?] at h ⊢
    cases hp : p a with
    | true => rw [hp] at h; simpa using h
    | false => rw [hp] at h; simp only [List.cons_append]; exact ih l2 h

theorem pyDictGet_set_isSome (l : List (String × Val)) (k : String) (v : Val)
    (c : String) (h : (pyDictGet l c).isSome = true) :
    (pyDictGet (pyDictSet l k v) c).isSome = true := by
  unfold pyDictSet
  split
  · unfold pyDictGet at h ⊢
    rw [find?_map_keyfix (fun p => if p.1 = k then (p.1, v) else p)
      (fun p => by by_cases hp : p.1 = k <;> simp [hp]) c l]
    cases hfind : List.find? (fun p => p.1 = c) l with
    | none => rw [hfind] at h; simp at h
    | some p => simp [hfind]
  · unfold pyDictGet at h ⊢
    cases hfind : List.find? (fun p => p.1 = c) l with
    | none => rw [hfind] at h; simp at h
    | some p =>
      rw [find?_append_left _ p l [(k, v)] hfind]
      rfl

theorem foldl_preserves_get_isSome (c : String)
    (step : List (String × Val) → String → List (String × Val))
    (hstep : ∀ l c0, (pyDictGet l c).isSome = true →
      (pyDictGet (step l c0) c).isSome = true) :
    ∀ (cols : List String) (l : List (String × Val)),
      (pyDictGet l c).isSome = true →
      (pyDictGet (cols.foldl step l) c).isSome = true := by
  intro cols
  induction cols with
  | nil => intro l h; simpa using h
  | cons c0 cols ih =>
    intro l h
    simpa using ih (step l c0) (hstep l c0 h)

theorem qcFix_get_isSome (c : String) (l : List (String × Val))
    (h : (pyDictGet l c).isSome = true) :
    (pyDictGet (qcFixCells l) c).isSome = true := by
  unfold qcFixCells
  refine foldl_preserves_get_isSome c _ ?_ dataColumns l h
  intro l0 c0 h0
  split
  · exact h0
  · split
    · split
      · exact pyDictGet_set_isSome l0 (c0 ++ " QC") .nan c h0
      · exact h0
    · exact h0

theorem fillna_get (l : List (String × Val)) (c : String) :
    pyDictGet (fillnaCells l) c = (pyDictGet l c).map (fun v => fillnaVal v) := by
  unfold pyDictGet fillnaCells
  rw [find?_map_keyfix (fun p => (p.1, fillnaVal p.2)) (fun p => rfl) c l]
  cases List.find? (fun p => p.1 = c) l <;> rfl

theorem fillnaVal_ne_nan (v : Val) : fillnaVal v ≠ Val.nan := by
  unfold fillnaVal
  split
  · simp [nanValueInt]
  · assumption

theorem processedRow_no_nan (r : Row) (hr : rowComplete r = true) :
    ∀ v ∈ processedRow r, v ≠ Val.nan := by
  intro v hv
  unfold processedRow at hv
  obtain ⟨c, hc, hveq⟩ := List.mem_map.mp hv
  have hcd : c ∈ dataColumns := by
    have hsub : ∀ x ∈ outputCols, x ∈ dataColumns := by decide
    exact hsub c hc
  have hsome0 : (pyDictGet r.cells c).isSome = true := by
    unfold rowComplete at hr
    exact List.all_eq_true.mp hr c hcd
  have hsome1 : (pyDictGet (qcFixCells r.cells) c).isSome = true :=
    qcFix_get_isSome c r.cells hsome0
  obtain ⟨w, hw⟩ := Option.isSome_iff_exists.mp hsome1
  rw [fillna_get, hw] at hveq
  simp at hveq
  exact hveq ▸ fillnaVal_ne_nan w

theorem selectObs_sub (d : List Row) (oid : Option String) (key : String)
    (drows : List Row) (h : selectObs d oid = .ok (key, drows)) :
    ∀ r ∈ drows, r ∈ d := by
  cases oid with
  | none =>
    unfold selectObs at h
    by_cases hu : (pyUnique (d.map (fun r => r.id))).length = 1
    · rw [if_pos hu] at h
      cases d with
      | nil => simp at h
      | cons r rest =>
        cases h
        intro x hx
        exact hx
    · rw [if_neg hu] at h
      simp at h
  | some gid =>
    unfold selectObs at h
    cases h
    intro x hx
    exact (List.mem_filter.mp hx).1

theorem buildBlocks_rows (m : RecordD) (rows : List (String × List Val))
    (blocks : List TimeBlock) (h : buildBlocks m rows = .ok blocks) :
    ∀ b ∈ blocks, ∀ row ∈ b.rows, ∃ p ∈ rows, p.2 = row := by
  intro b hb row hrow
  obtain ⟨t, _, hft⟩ := exMapM_mem _ _ _ h b hb
  simp only [bind, Except.bind] at hft
  obtain ⟨lat, _, hft⟩ := exBind_ok hft
  obtain ⟨lon, _, hft⟩ := exBind_ok hft
  obtain ⟨idS, _, hft⟩ := exBind_ok hft
  obtain ⟨nameS, _, hft⟩ := exBind_ok hft
  obtain ⟨fm, _, hft⟩ := exBind_ok hft
  obtain ⟨src, _, hft⟩ := exBind_ok hft
  obtain ⟨elev, _, hft⟩ := exBind_ok hft
  obtain ⟨sndV, _, hft⟩ := exBind_ok hft
  cases sndV with
  | vstr s =>
    obtain ⟨bogS, _, hft⟩ := exBind_ok hft
    cases hft
    simp only [List.mem_map] at hrow
    obtain ⟨p, hp, hpeq⟩ := hrow
    exact ⟨p, (List.mem_filter.mp hp).1, hpeq⟩
  | vbool b2 => simp at hft
  | vint n => simp at hft
  | vflt q => simp at hft
  | nan => simp at hft

/-- **C6.** Sentinel handling.  (1) Decoding the raw text `-888888`
in any float- or integer-typed field of either layout yields
`np.nan`.  (2) In any normally-returning `to_wrf_nudging` call on a
complete frame, no `np.nan` survives into a written data row — every
cell passes through `fillna(self.nan_value)`.  (3) That fill maps
`np.nan` to the integer sentinel `-888888`, and (4) the writer's
fixed-width `{:11.3f}` field renders it as `-888888.000`. -/
theorem sentinel_decode_and_fill :
    (∀ p ∈ headerSpecs ++ dataSpecs,
      p.2.1 = DType.dflt ∨ p.2.1 = DType.dint →
      decodeField p.2.1 "-888888" = some Val.nan) ∧
    (∀ (st : ReportState) (d : List Row) (fname : String) (ow : Bool)
      (oid : Option String) (fe : Bool) (res : WrfResult)
      (blocks : List TimeBlock),
      st.df = some d →
      (∀ r ∈ d, rowComplete r = true) →
      toWrfNudging st fname ow oid fe = .ok res →
      res.written = some blocks →
      ∀ b ∈ blocks, ∀ row ∈ b.rows, Val.nan ∉ row) ∧
    (∀ v, v = Val.nan → fillnaVal v = Val.vint nanValueInt) ∧
    fmtFixed113 (Val.vint nanValueInt) = "-888888.000" := by
  refine ⟨by decide, ?_, by intro v hv; rw [hv]; rfl, by decide⟩
  intro st d fname ow oid fe res blocks hdf hwf h hwr b hb row hrow
  unfold toWrfNudging at h
  rw [hdf] at h
  simp only [] at h
  by_cases hg1 : (d.any fun r => isna (getCell r "Pressure (Pa)")) = true
  · rw [if_pos hg1] at h
    cases h
    simp at hwr
  · rw [if_neg hg1] at h
    by_cases hg2 : (fe && !ow) = true
    · rw [if_pos hg2] at h
      cases h
      simp at hwr
    · rw [if_neg hg2] at h
      cases hsel : selectObs d oid with
      | error e => rw [hsel] at h; simp at h
      | ok kp =>
        obtain ⟨key, drows⟩ := kp
        rw [hsel] at h
        simp only [] at h
        cases htr : obsTruncateAt st.obs key with
        | error e => rw [htr] at h; simp at h
        | ok mo =>
          obtain ⟨m, obs2⟩ := mo
          rw [htr] at h
          simp only [] at h
          cases hbb : buildBlocks m
              (drows.map (fun r => (r.datetime, processedRow r))) with
          | error e => rw [hbb] at h; simp at h
          | ok blocks0 =>
            rw [hbb] at h
            simp only [] at h
            cases h
            simp only at hwr
            injection hwr with hbl
            subst hbl
            obtain ⟨p, hp, hpeq⟩ :=
              buildBlocks_rows m _ blocks0 hbb b hb row hrow
            obtain ⟨r0, hr0, hr0eq⟩ := List.mem_map.mp hp
            have hr0d : r0 ∈ d := selectObs_sub d oid key drows hsel r0 hr0
            intro hmem
            have hrowp : row = processedRow r0 := by
              rw [← hpeq, ← hr0eq]
            exact processedRow_no_nan r0 (hwf r0 hr0d) Val.nan
              (hrowp ▸ hmem) rfl

/-- Witness for C6: the decode half applied to a concrete float field
and a concrete integer field of the layouts. -/
theorem sentinel_decode_and_fill_witness :
    decodeField DType.dflt "-888888" = some Val.nan ∧
    decodeField DType.dint "-888888" = some Val.nan :=
  ⟨sentinel_decode_and_fill.1 ("Latitude", DType.dflt, 20) (by decide)
    (Or.inl rfl),
   sentinel_decode_and_fill.1 ("SLP QC", DType.dint, 7) (by decide)
    (Or.inr rfl)⟩

/-- **C4 (amended).** `to_little_r` never changes the state, and
`to_wrf_nudging` never changes `self.df`; an early return leaves the
whole state untouched, but a call that writes output has mutated
`self.obs` in place exactly as `meta = self.obs[obs_id]` followed by
the six truncation/stringification assignments does (captured by
`obsTruncateAt`: ID/Name/FM-Code/Source cut to 5/75/18/16 characters,
the two flags replaced by one-character strings). -/
theorem nudging_state_change_characterisation
    (st : ReportState) (fname : String) (ow : Bool) (oid : Option String)
    (fe : Bool) (res : WrfResult)
    (h : toWrfNudging st fname ow oid fe = .ok res) :
    res.state.df = st.df ∧
    (res.written = none → res.state = st) ∧
    (res.written.isSome = true →
      ∃ key, (obsTruncateAt st.obs key).map (fun p => p.2) =
        .ok res.state.obs) ∧
    (∀ (st2 : ReportState) (fn2 : String) (ow2 : Bool)
      (out : Unit × ReportState),
      toLittleR st2 fn2 ow2 = .ok out → out.2 = st2) := by
  have hlr : ∀ (st2 : ReportState) (fn2 : String) (ow2 : Bool)
      (out : Unit × ReportState),
      toLittleR st2 fn2 ow2 = .ok out → out.2 = st2 := by
    intro st2 fn2 ow2 out hout
    unfold toLittleR at hout
    split at hout
    · simp at hout
    · cases hout
      rfl
  unfold toWrfNudging at h
  cases hdf : st.df with
  | none =>
    rw [hdf] at h
    simp at h
  | some d =>
    rw [hdf] at h
    simp only [] at h
    by_cases hg1 : (d.any fun r => isna (getCell r "Pressure (Pa)")) = true
    · rw [if_pos hg1] at h
      cases h
      exact ⟨hdf, fun _ => rfl, by simp, hlr⟩
    · rw [if_neg hg1] at h
      by_cases hg2 : (fe && !ow) = true
      · rw [if_pos hg2] at h
        cases h
        exact ⟨hdf, fun _ => rfl, by simp, hlr⟩
      · rw [if_neg hg2] at h
        cases hsel : selectObs d oid with
        | error e => rw [hsel] at h; simp at h
        | ok kp =>
          obtain ⟨key, drows⟩ := kp
          rw [hsel] at h
          simp only [] at h
          cases htr : obsTruncateAt st.obs key with
          | error e => rw [htr] at h; simp at h
          | ok mo =>
            obtain ⟨m, obs2⟩ := mo
            rw [htr] at h
            simp only [] at h
            cases hbb : buildBlocks m
                (drows.map (fun r => (r.datetime, processedRow r))) with
            | error e => rw [hbb] at h; simp at h
            | ok blocks0 =>
              rw [hbb] at h
              simp only [] at h
              cases h
              refine ⟨rfl, by simp, fun _ => ⟨key, ?_⟩, hlr⟩
              rw [htr]
              rfl

/-- Witness for C4's amended claim: on the concrete state read from
`c4File` the call returns normally and, by the characterisation,
leaves `self.df` untouched. -/
theorem nudging_state_change_witness :
    toWrfNudging c4State "o2.txt" false none false =
      .ok (extractOkW (toWrfNudging c4State "o2.txt" false none false)) ∧
    (extractOkW (toWrfNudging c4State "o2.txt" false none false)).state.df =
      c4State.df := by
  have h : toWrfNudging c4State "o2.txt" false none false =
      .ok (extractOkW (toWrfNudging c4State "o2.txt" false none false)) := by
    rfl
  exact ⟨h, (nudging_state_change_characterisation c4State "o2.txt" false
    none false _ h).1⟩
